import Mathlib

/-!
# Verification of the filbridge credit ledger, settlement polling and connection manager

Shallow embedding of the core logic of the `filbridge` repository:

* `CreditService.addCredits` / `CreditService.deductCredits` and the backing
  sqlite tables (`user_credits`, `credit_transactions`, `user_files`) from
  `backend/src/services/credits.ts` and the schema file;
* `OnlySwapsService.waitForExecution` (the settlement poll loop) from
  `src/onlyswaps/estimation.ts`;
* `SynapseService.withConnection` (the two-strike retry) from the synapse
  service;
* the `/initiate-storage` and `/fund-credits` route compositions from the
  storage router together with `UploadService.initiateUpload`.

Database rows are modelled as records, the tables as lists (transaction log
newest first, mirroring the prepend-on-insert order the service reads back),
bigint amounts as `Int`, and the uuid transaction ids as a fresh-`Nat`
counter.  Interleaved executions of `deductCredits` are modelled by splitting
the call at its `await` points into a balance-read step and a check-then-write
step, executed under an explicit schedule.
-/

namespace FilBridge

/-- One row of the `credit_transactions` table (`type` is `"deposit"` or
`"deduct"`, `amount` the bigint wei value stored as a decimal string in
sqlite). -/
structure CreditTxn where
  id : Nat
  user_address : String
  type : String
  amount : Int
  file_id : Option String
  bridge_request_id : Option String
  description : String
  deriving Repr, DecidableEq

/-- One row of the `user_files` table (only the fields the storage flow
touches). -/
structure UserFileRec where
  id : String
  user_address : String
  file_name : String
  file_size : Nat
  commp : Option String
  provider_id : Option String
  storage_duration_days : Nat
  storage_cost : Int
  deriving Repr, DecidableEq

/-- The sqlite database state visible to the credit and upload services:
`user_credits` (address ↦ balance), the `credit_transactions` log (newest
first), the `user_files` table, and the counter standing in for uuid
generation. -/
structure DbState where
  credits : List (String × Int)
  txns : List CreditTxn
  files : List UserFileRec
  nextTxnId : Nat
  deriving Repr, DecidableEq

def DbState.empty : DbState := ⟨[], [], [], 0⟩

/-- `Database.getUserCredit`: `SELECT * FROM user_credits WHERE user_address = ?`. -/
def getUserCredit (st : DbState) (addr : String) : Option Int :=
  (st.credits.find? (fun p => p.1 = addr)).map (·.2)

/-- `Database.updateUserCreditBalance`: `UPDATE user_credits SET balance = ?
WHERE user_address = ?` — a no-op when no row matches, exactly like the SQL
update. -/
def updateUserCreditBalance (st : DbState) (addr : String) (newBalance : Int) : DbState :=
  { st with credits := st.credits.map (fun p => if p.1 = addr then (p.1, newBalance) else p) }

/-- `Database.createUserCredit`: `INSERT INTO user_credits ...`. -/
def createUserCredit (st : DbState) (addr : String) (balance : Int) : DbState :=
  { st with credits := (addr, balance) :: st.credits }

/-- `Database.createCreditTransaction`: `INSERT INTO credit_transactions ...`,
with the uuid drawn from the fresh counter. -/
def createCreditTransaction (st : DbState) (typ addr : String) (amount : Int)
    (fileId rid : Option String) (descr : String) : DbState :=
  { st with
    txns := ⟨st.nextTxnId, addr, typ, amount, fileId, rid, descr⟩ :: st.txns
    nextTxnId := st.nextTxnId + 1 }

/-- `CreditService.getBalance`: the stored balance, an absent row reading as
zero. -/
def getBalance (st : DbState) (addr : String) : Int :=
  match getUserCredit st addr with
  | some b => b
  | none => 0

/-- `CreditService.addCredits`: read the balance, add `amount` unconditionally,
create or update the `user_credits` row, then log a `deposit` transaction
carrying the bridge request id. -/
def addCredits (st : DbState) (addr : String) (amount : Int) (bridgeRequestId : String) :
    DbState :=
  let currentBalance := getBalance st addr
  let newBalance := currentBalance + amount
  let st1 :=
    match getUserCredit st addr with
    | some _ => updateUserCreditBalance st addr newBalance
    | none => createUserCredit st addr newBalance
  createCreditTransaction st1 "deposit" addr amount none (some bridgeRequestId)
    ("Deposited " ++ toString amount ++ " USDFC wei via bridge " ++ bridgeRequestId)

/-- The result object `deductCredits` returns:
`{ success, error?, currentBalance?, requiredAmount? }`. -/
structure DeductResult where
  success : Bool
  error : Option String
  currentBalance : Option Int
  requiredAmount : Option Int
  deriving Repr, DecidableEq

/-- `CreditService.deductCredits`: read the balance; if it is below `cost`
return the typed insufficient-credits failure and leave the database
untouched; otherwise write the decreased balance and log a `deduct`
transaction. -/
def deductCredits (st : DbState) (addr : String) (cost : Int)
    (fileId fileName : String) (durationDays : Nat) : DeductResult × DbState :=
  let currentBalance := getBalance st addr
  if currentBalance < cost then
    (⟨false, some "Insufficient credits", some currentBalance, some cost⟩, st)
  else
    let newBalance := currentBalance - cost
    let st1 := updateUserCreditBalance st addr newBalance
    let st2 := createCreditTransaction st1 "deduct" addr cost (some fileId) none
      ("Storage cost for " ++ fileName ++ " (" ++ toString durationDays ++ " days)")
    (⟨true, none, none, none⟩, st2)

/-- Sum of the `deposit` transaction amounts recorded for `addr`. -/
def sumDeposits (st : DbState) (addr : String) : Int :=
  ((st.txns.filter (fun t => t.user_address = addr && t.type = "deposit")).map
    (fun t => t.amount)).sum

/-- Sum of the `deduct` transaction amounts recorded for `addr`. -/
def sumDeducts (st : DbState) (addr : String) : Int :=
  ((st.txns.filter (fun t => t.user_address = addr && t.type = "deduct")).map
    (fun t => t.amount)).sum

/-- A ledger operation against one address, as issued through the service:
a credit from a bridge deposit or a debit for a file upload. -/
inductive LedgerOp where
  | credit (amount : Int) (bridgeRequestId : String)
  | debit (amount : Int) (fileId fileName : String) (durationDays : Nat)
  deriving Repr, DecidableEq

def LedgerOp.amount : LedgerOp → Int
  | .credit a _ => a
  | .debit a _ _ _ => a

/-- Apply one ledger operation to the database (the debit's result object is
discarded; a rejected debit leaves the state unchanged). -/
def applyOp (addr : String) (st : DbState) : LedgerOp → DbState
  | .credit a rid => addCredits st addr a rid
  | .debit a fid fn d => (deductCredits st addr a fid fn d).2

/-- Apply a sequence of ledger operations in order. -/
def applyOps (addr : String) (st : DbState) (ops : List LedgerOp) : DbState :=
  ops.foldl (applyOp addr) st

/-- The conservation invariant the ledger is supposed to maintain for one
address: the stored balance equals the sum of deposit amounts minus the sum
of deduct amounts, and is non-negative. -/
def LedgerInv (addr : String) (st : DbState) : Prop :=
  getBalance st addr = sumDeposits st addr - sumDeducts st addr ∧
    0 ≤ getBalance st addr

/-! ## Interleaved debits

`deductCredits` suspends at each `await`: after the balance read
(`getBalance`) the check and the balance write happen in a later turn of the
event loop, so two concurrent calls can both read before either writes.  A
call is split into a `read` step and a `finish` step (check, write, log —
coalescing the tail steps only removes interleavings, so every behaviour of
this model is a behaviour of the code).  A schedule is a list of
(call index, step) pairs. -/

inductive DebitStep where
  | read
  | finish
  deriving Repr, DecidableEq

/-- One in-flight `deductCredits` call: its arguments, the balance it has
observed (once its read step ran), and its returned success flag (once its
finish step ran). -/
structure DebitCall where
  cost : Int
  fileId : String
  fileName : String
  durationDays : Nat
  seen : Option Int
  result : Option Bool
  deriving Repr, DecidableEq

/-- Start a `deductCredits` call with the given arguments. -/
def DebitCall.start (cost : Int) (fileId fileName : String) (durationDays : Nat) : DebitCall :=
  ⟨cost, fileId, fileName, durationDays, none, none⟩

/-- Execute one scheduled step of one in-flight debit call: `read` records the
current balance; `finish` performs the insufficient-funds check against the
*recorded* balance and, on success, writes the decreased balance and logs the
`deduct` transaction, exactly as the tail of `deductCredits` does. -/
def debitStep (addr : String) (s : DbState × List DebitCall) (ev : Nat × DebitStep) :
    DbState × List DebitCall :=
  let (st, calls) := s
  let (i, step) := ev
  match calls.get? i with
  | none => s
  | some c =>
    match step with
    | .read =>
      match c.seen, c.result with
      | none, none => (st, calls.set i { c with seen := some (getBalance st addr) })
      | _, _ => s
    | .finish =>
      match c.seen, c.result with
      | some b, none =>
        if b < c.cost then
          (st, calls.set i { c with result := some false })
        else
          let st1 := updateUserCreditBalance st addr (b - c.cost)
          let st2 := createCreditTransaction st1 "deduct" addr c.cost (some c.fileId) none
            ("Storage cost for " ++ c.fileName ++ " (" ++ toString c.durationDays ++ " days)")
          (st2, calls.set i { c with result := some true })
      | _, _ => s

/-- Run a schedule of interleaved debit steps against the database. -/
def runSchedule (addr : String) (st : DbState) (calls : List DebitCall)
    (sched : List (Nat × DebitStep)) : DbState × List DebitCall :=
  sched.foldl (debitStep addr) (st, calls)

/-- Number of calls that returned success. -/
def successCount (calls : List DebitCall) : Nat :=
  calls.countP (fun c => c.result == some true)

/-! ## The settlement poll loop

`OnlySwapsService.waitForExecution` from `src/onlyswaps/estimation.ts`.
Time is idealized: each tick's concurrent fetch pair is instantaneous and the
sleep lasts exactly `intervalMs`, so the elapsed time at tick `k` is
`k * intervalMs`.  The pair of fetches (`fetchFulfillmentReceipt`,
`fetchRequestParams`) run under `Promise.all`; a rejection of either rejects
the pair, so one `fetch` function per tick returns either both flags or an
error. -/

/-- The two status flags one poll tick observes: `executed` from the request
parameters, `fulfilled` from the fulfillment receipt. -/
structure PollStatus where
  executed : Bool
  fulfilled : Bool
  deriving Repr, DecidableEq

/-- How a `waitForExecution` call ends: a normal return at some tick, the
timeout `throw`, or a fetch rejection propagating out of the loop. -/
inductive PollResult where
  | resolved (tick : Nat) (status : PollStatus)
  | timedOut (elapsedMs : Nat) (message : String)
  | fetchFailed (tick : Nat) (message : String)
  deriving Repr, DecidableEq

/-- The message of the timeout error the loop throws; it is built from the
configured timeout alone. -/
def timeoutMessage (timeoutMs : Nat) : String :=
  "Swap execution timeout after " ++ toString timeoutMs ++ "ms"

/-- The body of the `while (true)` loop, fuel-indexed (`none` = ran out of
fuel; enough fuel always exists when `intervalMs > 0`).  Faithful order of the
code: check `elapsed > timeoutMs` and throw *before* fetching; then fetch both
statuses; return iff `params.executed`; otherwise sleep and loop. -/
def pollAux (fetch : Nat → Except String PollStatus) (timeoutMs intervalMs : Nat) :
    Nat → Nat → Option PollResult
  | 0, _ => none
  | fuel + 1, tick =>
    let elapsed := tick * intervalMs
    if timeoutMs < elapsed then
      some (.timedOut elapsed (timeoutMessage timeoutMs))
    else
      match fetch tick with
      | .error e => some (.fetchFailed tick e)
      | .ok status =>
        if status.executed then some (.resolved tick status)
        else pollAux fetch timeoutMs intervalMs fuel (tick + 1)

/-- `OnlySwapsService.waitForExecution`, supplied with enough fuel to reach
the tick after the deadline. -/
def waitForExecution (fetch : Nat → Except String PollStatus) (timeoutMs intervalMs : Nat) :
    Option PollResult :=
  pollAux fetch timeoutMs intervalMs (timeoutMs / intervalMs + 2) 0

/-! ## The connection manager's two-strike retry

`SynapseService.withConnection`: run the operation; on failure reset the
session and, if this was the first attempt, run it once more; a second
failure is rethrown.  The operation's behaviour may differ between the two
attempts (the retry runs against a fresh session), so it is modelled as a
function of the attempt index.  The second component counts
`resetConnection` calls. -/
def withConnection {α : Type} (op : Nat → Except String α) : Except String α × Nat :=
  match op 0 with
  | .ok r => (.ok r, 0)
  | .error _ =>
    match op 1 with
    | .ok r => (.ok r, 1)
    | .error e2 => (.error e2, 2)

/-! ## Route compositions -/

/-- `calculateStorageCost` from `backend/src/constants.ts`:
`fileSize * BYTES_RATE * (durationDays * EPOCHS_PER_DAY) + fileSize * BYTES_LOCKUP`
with `BYTES_RATE = 100`, `EPOCHS_PER_DAY = 2880`, `BYTES_LOCKUP = 1000`. -/
def calculateStorageCost (fileSizeBytes durationDays : Nat) : Int :=
  let durationEpochs : Int := (durationDays : Int) * 2880
  let fileSize : Int := (fileSizeBytes : Int)
  let rateCost := fileSize * 100 * durationEpochs
  let lockupCost := fileSize * 1000
  rateCost + lockupCost

/-- `Database.createUserFile`: insert the pending `user_files` row (content
address and provider still null). -/
def createUserFile (st : DbState) (f : UserFileRec) : DbState :=
  { st with files := f :: st.files }

/-- `Database.updateUserFile` as used by `processUpload`: set `commp` and
`provider_id` on the row. -/
def updateUserFileCommp (st : DbState) (fileId commp providerId : String) : DbState :=
  { st with
    files := st.files.map (fun f =>
      if f.id = fileId then { f with commp := some commp, provider_id := some providerId }
      else f) }

/-- Outcome of the Synapse storage write performed inside `processUpload`. -/
inductive StorageOutcome where
  | ok (commp providerId : String)
  | fail (message : String)
  deriving Repr, DecidableEq

/-- The JSON responses of `POST /api/initiate-storage`. -/
inductive StorageResponse where
  | insufficientCredits (currentBalance requiredAmount : Option Int)
  | completed (fileId : String) (storageCost : Int)
  | serverError (message : String)
  deriving Repr, DecidableEq

/-- The `/initiate-storage` route composed with `UploadService.initiateUpload`
and `processUpload`: compute the cost, deduct credits (402 on the typed
failure), create the pending file row, then perform the storage write; a
storage failure is caught by the route's handler and returned as a 500 —
no ledger operation runs after the deduction. -/
def initiateStorage (st : DbState) (userAddress : String) (fileSize durationDays : Nat)
    (fileId fileName : String) (upload : StorageOutcome) : StorageResponse × DbState :=
  let cost := calculateStorageCost fileSize durationDays
  let (deduction, st1) := deductCredits st userAddress cost fileId fileName durationDays
  if deduction.success then
    let st2 := createUserFile st1
      ⟨fileId, userAddress, fileName, fileSize, none, none, durationDays, cost⟩
    match upload with
    | .fail e => (.serverError ("Synapse upload failed: " ++ e), st2)
    | .ok commp pid => (.completed fileId cost, updateUserFileCommp st2 fileId commp pid)
  else
    (.insufficientCredits deduction.currentBalance deduction.requiredAmount, st1)

/-- The JSON responses of `POST /api/fund-credits`. -/
inductive FundResponse where
  | badRequest (message : String)
  | funded (newBalance amountAdded : Int)
  deriving Repr, DecidableEq

/-- The `/fund-credits` route: the only validation is presence of the three
fields (`!userAddress || !amount || !bridgeRequestId`); the decimal amount
string is parsed with `BigInt`, which accepts negative values, and passed to
`addCredits` unchanged. -/
def fundCredits (st : DbState) (userAddress : Option String) (amount : Option Int)
    (bridgeRequestId : Option String) : FundResponse × DbState :=
  match userAddress, amount, bridgeRequestId with
  | some addr, some a, some rid =>
    let normalized := addr.toLower
    let st1 := addCredits st normalized a rid
    (.funded (getBalance st1 normalized) a, st1)
  | _, _, _ =>
    (.badRequest "Missing required fields: userAddress, amount, bridgeRequestId", st)

/-! ## Ledger lemmas -/

theorem find?_update (l : List (String × Int)) (addr : String) (b : Int) :
    (l.map (fun p => if p.1 = addr then (p.1, b) else p)).find? (fun p => p.1 = addr)
      = (l.find? (fun p => p.1 = addr)).map (fun p => (p.1, b)) := by
  induction l with
  | nil => rfl
  | cons hd tl ih =>
    by_cases h : hd.1 = addr
    · simp [List.find?_cons, h]
    · simp [List.find?_cons, h, ih]

theorem getUserCredit_update (st : DbState) (addr : String) (b : Int) :
    getUserCredit (updateUserCreditBalance st addr b) addr
      = (getUserCredit st addr).map (fun _ => b) := by
  unfold getUserCredit updateUserCreditBalance
  rw [find?_update]
  cases st.credits.find? (fun p => p.1 = addr) <;> rfl

theorem getUserCredit_createCreditTransaction (st : DbState) (typ addr₀ : String)
    (amount : Int) (fileId rid : Option String) (descr : String) (addr : String) :
    getUserCredit (createCreditTransaction st typ addr₀ amount fileId rid descr) addr
      = getUserCredit st addr := rfl

theorem txns_updateUserCreditBalance (st : DbState) (addr : String) (b : Int) :
    (updateUserCreditBalance st addr b).txns = st.txns := rfl

theorem txns_createUserCredit (st : DbState) (addr : String) (b : Int) :
    (createUserCredit st addr b).txns = st.txns := rfl

theorem getBalance_createCreditTransaction (st : DbState) (typ addr₀ : String)
    (amount : Int) (fileId rid : Option String) (descr : String) (addr : String) :
    getBalance (createCreditTransaction st typ addr₀ amount fileId rid descr) addr
      = getBalance st addr := rfl

theorem getBalance_update_isSome (st : DbState) (addr : String) (b : Int)
    (hsome : (getUserCredit st addr).isSome) :
    getBalance (updateUserCreditBalance st addr b) addr = b := by
  unfold getBalance
  rw [getUserCredit_update]
  cases h : getUserCredit st addr with
  | some c => simp
  | none => rw [h] at hsome; simp at hsome

theorem getBalance_createUserCredit (st : DbState) (addr : String) (b : Int) :
    getBalance (createUserCredit st addr b) addr = b := by
  unfold getBalance getUserCredit createUserCredit
  simp [List.find?_cons]

theorem getBalance_addCredits (st : DbState) (addr : String) (a : Int) (rid : String) :
    getBalance (addCredits st addr a rid) addr = getBalance st addr + a := by
  simp only [addCredits]
  cases h : getUserCredit st addr with
  | some b =>
    rw [getBalance_createCreditTransaction,
      getBalance_update_isSome st addr _ (by rw [h]; rfl)]
  | none =>
    rw [getBalance_createCreditTransaction, getBalance_createUserCredit]

theorem sumDeposits_addCredits (st : DbState) (addr : String) (a : Int) (rid : String) :
    sumDeposits (addCredits st addr a rid) addr = sumDeposits st addr + a := by
  unfold addCredits sumDeposits createCreditTransaction
  cases h : getUserCredit st addr <;>
    simp [updateUserCreditBalance, createUserCredit, List.filter_cons, add_comm]

theorem sumDeducts_addCredits (st : DbState) (addr : String) (a : Int) (rid : String) :
    sumDeducts (addCredits st addr a rid) addr = sumDeducts st addr := by
  unfold addCredits sumDeducts createCreditTransaction
  cases h : getUserCredit st addr <;>
    simp [updateUserCreditBalance, createUserCredit, List.filter_cons]

theorem deductCredits_insufficient (st : DbState) (addr : String) (cost : Int)
    (fid fn : String) (d : Nat) (h : getBalance st addr < cost) :
    deductCredits st addr cost fid fn d
      = (⟨false, some "Insufficient credits", some (getBalance st addr), some cost⟩, st) := by
  unfold deductCredits
  rw [if_pos h]

theorem isSome_of_getBalance_ne_zero (st : DbState) (addr : String)
    (h : getBalance st addr ≠ 0) : (getUserCredit st addr).isSome := by
  unfold getBalance at h
  cases hc : getUserCredit st addr with
  | some b => simp
  | none => rw [hc] at h; exact absurd rfl h

theorem getBalance_deduct_sufficient (st : DbState) (addr : String) (cost : Int)
    (fid fn : String) (d : Nat) (hle : cost ≤ getBalance st addr)
    (hsome : (getUserCredit st addr).isSome) :
    getBalance (deductCredits st addr cost fid fn d).2 addr = getBalance st addr - cost := by
  unfold deductCredits
  rw [if_neg (not_lt.mpr hle)]
  cases hc : getUserCredit st addr with
  | some b =>
    simp only [getBalance, getUserCredit_createCreditTransaction, getUserCredit_update, hc,
      Option.map_some']
  | none => rw [hc] at hsome; exact absurd hsome (by simp)

theorem sums_deduct_sufficient (st : DbState) (addr : String) (cost : Int)
    (fid fn : String) (d : Nat) (hle : cost ≤ getBalance st addr) :
    sumDeducts (deductCredits st addr cost fid fn d).2 addr = sumDeducts st addr + cost ∧
      sumDeposits (deductCredits st addr cost fid fn d).2 addr = sumDeposits st addr := by
  unfold deductCredits
  rw [if_neg (not_lt.mpr hle)]
  constructor
  · unfold sumDeducts createCreditTransaction
    simp [updateUserCreditBalance, List.filter_cons, add_comm]
  · unfold sumDeposits createCreditTransaction
    simp [updateUserCreditBalance, List.filter_cons]

theorem deduct_success_result (st : DbState) (addr : String) (cost : Int)
    (fid fn : String) (d : Nat) (hle : cost ≤ getBalance st addr) :
    (deductCredits st addr cost fid fn d).1 = ⟨true, none, none, none⟩ := by
  unfold deductCredits
  rw [if_neg (not_lt.mpr hle)]

theorem ledgerInv_empty (addr : String) : LedgerInv addr DbState.empty := by
  constructor <;> rfl

theorem ledgerInv_applyOp (addr : String) (st : DbState) (op : LedgerOp)
    (h : LedgerInv addr st) (ha : 0 < op.amount) :
    LedgerInv addr (applyOp addr st op) := by
  obtain ⟨hsum, hnn⟩ := h
  cases op with
  | credit a rid =>
    simp only [LedgerOp.amount] at ha
    refine ⟨?_, ?_⟩
    · rw [applyOp, getBalance_addCredits, sumDeposits_addCredits, sumDeducts_addCredits, hsum]
      ring
    · rw [applyOp, getBalance_addCredits]
      exact add_nonneg hnn (le_of_lt ha)
  | debit a fid fn d =>
    simp only [LedgerOp.amount] at ha
    by_cases hcase : getBalance st addr < a
    · rw [applyOp, deductCredits_insufficient st addr a fid fn d hcase]
      exact ⟨hsum, hnn⟩
    · push_neg at hcase
      have hpos : getBalance st addr ≠ 0 := by
        intro h0
        rw [h0] at hcase
        exact absurd (lt_of_lt_of_le ha hcase) (lt_irrefl 0)
      have hsome := isSome_of_getBalance_ne_zero st addr hpos
      obtain ⟨hded, hdep⟩ := sums_deduct_sufficient st addr a fid fn d hcase
      refine ⟨?_, ?_⟩
      · rw [applyOp, getBalance_deduct_sufficient st addr a fid fn d hcase hsome, hded, hdep,
          hsum]
        ring
      · rw [applyOp, getBalance_deduct_sufficient st addr a fid fn d hcase hsome]
        omega

theorem ledgerInv_applyOps (addr : String) (st : DbState) (ops : List LedgerOp)
    (h : LedgerInv addr st) (ha : ∀ op ∈ ops, 0 < op.amount) :
    LedgerInv addr (applyOps addr st ops) := by
  induction ops generalizing st with
  | nil => exact h
  | cons hd tl ih =>
    rw [applyOps, List.foldl_cons]
    exact ih (applyOp addr st hd) (ledgerInv_applyOp addr st hd h (ha hd (by simp)))
      (fun op hop => ha op (by simp [hop]))

/-- **C1**: for every sequence of credits and debits with positive amounts
against one address, the stored balance equals the sum of the `deposit`
transaction amounts minus the sum of the `deduct` transaction amounts and is
never negative; a debit exceeding the current balance is rejected unchanged
(typed failure, same state), never clamped. -/
theorem ledger_conservation_nonneg (addr : String) (ops : List LedgerOp)
    (hpos : ∀ op ∈ ops, 0 < op.amount) :
    (getBalance (applyOps addr DbState.empty ops) addr
        = sumDeposits (applyOps addr DbState.empty ops) addr
          - sumDeducts (applyOps addr DbState.empty ops) addr) ∧
      0 ≤ getBalance (applyOps addr DbState.empty ops) addr ∧
      ∀ st a fid fn d, getBalance st addr < a →
        deductCredits st addr a fid fn d
          = (⟨false, some "Insufficient credits", some (getBalance st addr), some a⟩, st) := by
  obtain ⟨hsum, hnn⟩ := ledgerInv_applyOps addr DbState.empty ops (ledgerInv_empty addr) hpos
  exact ⟨hsum, hnn, fun st a fid fn d h => deductCredits_insufficient st addr a fid fn d h⟩

theorem ledger_conservation_nonneg_witness :
    (getBalance (applyOps "0xabc" DbState.empty
          [LedgerOp.credit 1000000 "r1", LedgerOp.debit 400000 "f1" "doc.txt" 30]) "0xabc"
        = sumDeposits (applyOps "0xabc" DbState.empty
            [LedgerOp.credit 1000000 "r1", LedgerOp.debit 400000 "f1" "doc.txt" 30]) "0xabc"
          - sumDeducts (applyOps "0xabc" DbState.empty
              [LedgerOp.credit 1000000 "r1", LedgerOp.debit 400000 "f1" "doc.txt" 30]) "0xabc") ∧
      0 ≤ getBalance (applyOps "0xabc" DbState.empty
          [LedgerOp.credit 1000000 "r1", LedgerOp.debit 400000 "f1" "doc.txt" 30]) "0xabc" ∧
      ∀ st a fid fn d, getBalance st "0xabc" < a →
        deductCredits st "0xabc" a fid fn d
          = (⟨false, some "Insufficient credits", some (getBalance st "0xabc"), some a⟩, st) :=
  ledger_conservation_nonneg "0xabc"
    [LedgerOp.credit 1000000 "r1", LedgerOp.debit 400000 "f1" "doc.txt" 30]
    (by decide)

/-- **C2**: a debit whose amount exceeds the current balance returns the typed
insufficient-credits failure carrying the current balance and the required
amount, and leaves the database — balance and transaction log — exactly as it
was. -/
theorem deduct_insufficient_typed_failure (st : DbState) (addr : String) (cost : Int)
    (fid fn : String) (d : Nat) (h : getBalance st addr < cost) :
    deductCredits st addr cost fid fn d
      = (⟨false, some "Insufficient credits", some (getBalance st addr), some cost⟩, st) :=
  deductCredits_insufficient st addr cost fid fn d h

theorem deduct_insufficient_typed_failure_witness :
    getBalance (addCredits DbState.empty "0xu" 100 "r1") "0xu" < 500 ∧
      deductCredits (addCredits DbState.empty "0xu" 100 "r1") "0xu" 500 "f1" "doc.txt" 30
        = (⟨false, some "Insufficient credits",
            some (getBalance (addCredits DbState.empty "0xu" 100 "r1") "0xu"), some 500⟩,
          addCredits DbState.empty "0xu" 100 "r1") :=
  ⟨by decide,
    deduct_insufficient_typed_failure (addCredits DbState.empty "0xu" 100 "r1") "0xu" 500
      "f1" "doc.txt" 30 (by decide)⟩

/-! ## Interleaving, double-credit and validation theorems -/

theorem txns_addCredits (st : DbState) (addr : String) (a : Int) (rid : String) :
    (addCredits st addr a rid).txns
      = ⟨st.nextTxnId, addr, "deposit", a, none, some rid,
          "Deposited " ++ toString a ++ " USDFC wei via bridge " ++ rid⟩ :: st.txns := by
  simp only [addCredits]
  cases getUserCredit st addr <;> rfl

/-- **C3**: the debit's check-then-mutate is *not* atomic — `deductCredits`
suspends between its balance read and its balance write, and nothing
serializes calls per address.  Concretely: balance 100, two concurrent debits
of 100 each, scheduled so both reads run before either write.  Both calls
succeed (2 instead of floor(100/100) = 1), the log records 200 wei of deducts
against a single 100 wei deposit, and conservation is broken. -/
theorem deduct_not_atomic_over_debit :
    successCount (runSchedule "0xu" (addCredits DbState.empty "0xu" 100 "r1")
        [DebitCall.start 100 "f1" "a.txt" 30, DebitCall.start 100 "f2" "b.txt" 30]
        [(0, .read), (1, .read), (0, .finish), (1, .finish)]).2 = 2 ∧
      (100 : Nat) / 100 = 1 ∧
      sumDeducts (runSchedule "0xu" (addCredits DbState.empty "0xu" 100 "r1")
          [DebitCall.start 100 "f1" "a.txt" 30, DebitCall.start 100 "f2" "b.txt" 30]
          [(0, .read), (1, .read), (0, .finish), (1, .finish)]).1 "0xu" = 200 ∧
      sumDeposits (runSchedule "0xu" (addCredits DbState.empty "0xu" 100 "r1")
          [DebitCall.start 100 "f1" "a.txt" 30, DebitCall.start 100 "f2" "b.txt" 30]
          [(0, .read), (1, .read), (0, .finish), (1, .finish)]).1 "0xu" = 100 ∧
      getBalance (runSchedule "0xu" (addCredits DbState.empty "0xu" 100 "r1")
          [DebitCall.start 100 "f1" "a.txt" 30, DebitCall.start 100 "f2" "b.txt" 30]
          [(0, .read), (1, .read), (0, .finish), (1, .finish)]).1 "0xu" = 0 := by
  decide

/-- **C9**: credit is not idempotent per settlement id — two `addCredits`
calls with the same bridge request id add the amount twice and write two
`deposit` transaction records carrying that id; no uniqueness constraint
intervenes. -/
theorem addCredits_not_idempotent (st : DbState) (addr : String) (a : Int) (rid : String)
    (_hpos : 0 < a) :
    getBalance (addCredits (addCredits st addr a rid) addr a rid) addr
        = getBalance st addr + 2 * a ∧
      (addCredits (addCredits st addr a rid) addr a rid).txns.countP
          (fun t => t.user_address = addr && t.type = "deposit" &&
            t.bridge_request_id == some rid && t.amount == a)
        = st.txns.countP
            (fun t => t.user_address = addr && t.type = "deposit" &&
              t.bridge_request_id == some rid && t.amount == a) + 2 := by
  constructor
  · rw [getBalance_addCredits, getBalance_addCredits]
    ring
  · rw [txns_addCredits, txns_addCredits]
    simp [List.countP_cons]

theorem addCredits_not_idempotent_witness :
    (0 : Int) < 50 ∧
      (getBalance (addCredits (addCredits DbState.empty "0xu" 50 "r1") "0xu" 50 "r1") "0xu"
          = getBalance DbState.empty "0xu" + 2 * 50 ∧
        (addCredits (addCredits DbState.empty "0xu" 50 "r1") "0xu" 50 "r1").txns.countP
            (fun t => t.user_address = "0xu" && t.type = "deposit" &&
              t.bridge_request_id == some "r1" && t.amount == 50)
          = DbState.empty.txns.countP
              (fun t => t.user_address = "0xu" && t.type = "deposit" &&
                t.bridge_request_id == some "r1" && t.amount == 50) + 2) :=
  ⟨by decide, addCredits_not_idempotent DbState.empty "0xu" 50 "r1" (by decide)⟩

/-- **C10**: `addCredits` applies its amount unconditionally — for every
integer amount, zero and negatives included, the new balance is the old
balance plus the amount and a `deposit` transaction with that amount is
logged; the fund-credits route checks only field presence, so a negative
amount passes through and drives the balance below zero. -/
theorem addCredits_unconditional :
    (∀ (st : DbState) (addr : String) (a : Int) (rid : String),
        getBalance (addCredits st addr a rid) addr = getBalance st addr + a ∧
        (addCredits st addr a rid).txns
          = ⟨st.nextTxnId, addr, "deposit", a, none, some rid,
              "Deposited " ++ toString a ++ " USDFC wei via bridge " ++ rid⟩ :: st.txns) ∧
      (fundCredits DbState.empty (some "0xu") (some (-5)) (some "r1")).1
          = .funded (-5) (-5) ∧
      getBalance (fundCredits DbState.empty (some "0xu") (some (-5)) (some "r1")).2
          ("0xu".toLower) = -5 ∧
      getBalance (fundCredits DbState.empty (some "0xu") (some (-5)) (some "r1")).2
          ("0xu".toLower) < 0 := by
  have hbal : ∀ x : String, getBalance (addCredits DbState.empty x (-5) "r1") x = -5 := by
    intro x
    rw [getBalance_addCredits]
    rfl
  refine ⟨fun st addr a rid => ⟨getBalance_addCredits st addr a rid,
    txns_addCredits st addr a rid⟩, ?_, ?_, ?_⟩
  · simp only [fundCredits, hbal]
  · simp only [fundCredits, hbal]
  · simp only [fundCredits, hbal]
    decide

/-! ## Poll loop theorems -/

theorem pollAux_succ (fetch : Nat → Except String PollStatus) (t i f tick : Nat) :
    pollAux fetch t i (f + 1) tick
      = if t < tick * i then some (.timedOut (tick * i) (timeoutMessage t))
        else
          match fetch tick with
          | .error e => some (.fetchFailed tick e)
          | .ok status =>
            if status.executed then some (.resolved tick status)
            else pollAux fetch t i f (tick + 1) := rfl

theorem pollAux_step_timeout (fetch : Nat → Except String PollStatus) (t i f tick : Nat)
    (hto : t < tick * i) :
    pollAux fetch t i (f + 1) tick = some (.timedOut (tick * i) (timeoutMessage t)) := by
  rw [pollAux_succ, if_pos hto]

theorem pollAux_step_error (fetch : Nat → Except String PollStatus) (t i f tick : Nat)
    (e : String) (hto : ¬ t < tick * i) (hf : fetch tick = .error e) :
    pollAux fetch t i (f + 1) tick = some (.fetchFailed tick e) := by
  rw [pollAux_succ, if_neg hto, hf]

theorem pollAux_step_ok (fetch : Nat → Except String PollStatus) (t i f tick : Nat)
    (status : PollStatus) (hto : ¬ t < tick * i) (hf : fetch tick = .ok status) :
    pollAux fetch t i (f + 1) tick
      = if status.executed then some (.resolved tick status)
        else pollAux fetch t i f (tick + 1) := by
  rw [pollAux_succ, if_neg hto, hf]

theorem lt_div_succ_mul (t i : Nat) (hi : 0 < i) : t < (t / i + 1) * i := by
  have h1 := Nat.div_add_mod t i
  have h2 := Nat.mod_lt t hi
  calc t = i * (t / i) + t % i := h1.symm
    _ < i * (t / i) + i := Nat.add_lt_add_left h2 _
    _ = (t / i + 1) * i := by ring

theorem pollAux_resolved_executed (fetch : Nat → Except String PollStatus) (t i : Nat) :
    ∀ (f tick k : Nat) (st : PollStatus),
      pollAux fetch t i f tick = some (.resolved k st) → st.executed = true := by
  intro f
  induction f with
  | zero => intro tick k st h; simp [pollAux] at h
  | succ g ih =>
    intro tick k st h
    by_cases hto : t < tick * i
    · rw [pollAux_step_timeout fetch t i g tick hto] at h
      simp at h
    · cases hf : fetch tick with
      | error e =>
        rw [pollAux_step_error fetch t i g tick e hto hf] at h
        simp at h
      | ok status =>
        rw [pollAux_step_ok fetch t i g tick status hto hf] at h
        by_cases hex : status.executed = true
        · rw [if_pos hex] at h
          simp only [Option.some_inj] at h
          cases h
          exact hex
        · rw [if_neg hex] at h
          exact ih (tick + 1) k st h

/-- **C4** counterexample: with a status source that forever reports
`executed = false, fulfilled = true` (and `timeout = 200ms, interval = 50ms`),
`waitForExecution` does not resolve on any tick — it runs to the deadline and
throws the timeout error, although the claim says `fulfilled = true` alone
resolves the call on that tick. -/
theorem waitForExecution_ignores_fulfilled_cex :
    waitForExecution (fun _ => .ok ⟨false, true⟩) 200 50
      = some (.timedOut 250 (timeoutMessage 200)) := rfl

/-- **C4** (amended): `waitForExecution` resolves on the `executed` flag
alone: any resolution carries `executed = true` (a fulfillment-only status
never resolves the call), and when the first fetch already reports
`executed = true` the call resolves immediately on that tick with that
status, whatever `fulfilled` is. -/
theorem waitForExecution_resolves_on_executed (fetch : Nat → Except String PollStatus)
    (t i : Nat) :
    (∀ (k : Nat) (st : PollStatus),
        waitForExecution fetch t i = some (.resolved k st) → st.executed = true) ∧
      (∀ st : PollStatus, fetch 0 = .ok st → st.executed = true →
        waitForExecution fetch t i = some (.resolved 0 st)) := by
  constructor
  · intro k st h
    exact pollAux_resolved_executed fetch t i (t / i + 2) 0 k st h
  · intro st hf hex
    unfold waitForExecution
    have h2 : t / i + 2 = (t / i + 1) + 1 := rfl
    rw [h2, pollAux_step_ok fetch t i (t / i + 1) 0 st (by simp) hf, if_pos hex]

theorem waitForExecution_resolves_on_executed_witness :
    waitForExecution (fun _ => .ok ⟨true, false⟩) 200 50
      = some (.resolved 0 ⟨true, false⟩) :=
  (waitForExecution_resolves_on_executed (fun _ => .ok ⟨true, false⟩) 200 50).2
    ⟨true, false⟩ rfl rfl

/-- **C5** counterexample: with `timeout = 200ms, interval = 50ms` and a
status source that never resolves, the loop does time out one interval past
the deadline (250ms ≤ 200 + 50) — but it performs *no* final status fetch at
the deadline: the result and message are identical whether the tick-5 fetch
would have failed or succeeded, because the timeout is thrown before any
fetch, with a message built from the configured timeout alone. -/
theorem waitForExecution_no_final_fetch_cex :
    waitForExecution (fun k => if k = 5 then .error "boom" else .ok ⟨false, false⟩) 200 50
        = some (.timedOut 250 (timeoutMessage 200)) ∧
      waitForExecution (fun _ => .ok ⟨false, false⟩) 200 50
        = some (.timedOut 250 (timeoutMessage 200)) ∧
      250 ≤ 200 + 50 :=
  ⟨rfl, rfl, by decide⟩

theorem pollAux_never_executed (fetch : Nat → Except String PollStatus) (t i : Nat)
    (hi : 0 < i) (hok : ∀ k, ∃ st, fetch k = .ok st ∧ st.executed = false) :
    ∀ (f tick : Nat), tick ≤ t / i + 1 → t / i + 1 < tick + f →
      pollAux fetch t i f tick
        = some (.timedOut ((t / i + 1) * i) (timeoutMessage t)) := by
  intro f
  induction f with
  | zero => intro tick h1 h2; omega
  | succ g ih =>
    intro tick h1 h2
    rcases Nat.lt_or_ge tick (t / i + 1) with hlt | hge
    · have hle : tick * i ≤ t := by
        have htdiv : tick ≤ t / i := by omega
        calc tick * i ≤ (t / i) * i := Nat.mul_le_mul_right i htdiv
          _ ≤ t := Nat.div_mul_le_self t i
      obtain ⟨st, hf, hex⟩ := hok tick
      rw [pollAux_step_ok fetch t i g tick st (by omega : ¬ t < tick * i) hf,
        if_neg (by simp [hex])]
      exact ih (tick + 1) (by omega) (by omega)
    · have htick : tick = t / i + 1 := le_antisymm h1 hge
      rw [htick]
      exact pollAux_step_timeout fetch t i g (t / i + 1) (lt_div_succ_mul t i hi)

/-- **C5** (amended): with a status source that never reports `executed` and
never fails, `waitForExecution` throws the timeout error at elapsed time
`(timeout / interval + 1) * interval`, which is at most `timeout` plus one
interval — but it performs no final status fetch at the deadline, and the
error message is built from the configured timeout alone. -/
theorem waitForExecution_timeout_bound (fetch : Nat → Except String PollStatus)
    (t i : Nat) (hi : 0 < i)
    (hok : ∀ k, ∃ st, fetch k = .ok st ∧ st.executed = false) :
    waitForExecution fetch t i
        = some (.timedOut ((t / i + 1) * i) (timeoutMessage t)) ∧
      (t / i + 1) * i ≤ t + i := by
  constructor
  · exact pollAux_never_executed fetch t i hi hok (t / i + 2) 0 (Nat.zero_le _) (by omega)
  · calc (t / i + 1) * i = (t / i) * i + i := by ring
      _ ≤ t + i := Nat.add_le_add_right (Nat.div_mul_le_self t i) i

theorem waitForExecution_timeout_bound_witness :
    (waitForExecution (fun _ => .ok ⟨false, false⟩) 200 50
        = some (.timedOut ((200 / 50 + 1) * 50) (timeoutMessage 200))) ∧
      (200 / 50 + 1) * 50 ≤ 200 + 50 :=
  waitForExecution_timeout_bound (fun _ => .ok ⟨false, false⟩) 200 50 (by decide)
    (fun _ => ⟨⟨false, false⟩, rfl, rfl⟩)

/-- **C6** counterexample: a status-fetch failure on the very first tick —
elapsed 0ms, strictly less than `timeout − interval` (0 + 50 < 200) —
propagates out of `waitForExecution` instead of being swallowed: there is no
try/catch around the fetches, so polling does not continue to the next
tick. -/
theorem fetch_failure_propagates_cex :
    waitForExecution (fun k => if k = 0 then .error "transient" else .ok ⟨false, false⟩)
        200 50
        = some (.fetchFailed 0 "transient") ∧
      0 + 50 < 200 :=
  ⟨rfl, by decide⟩

theorem pollAux_error_propagates (fetch : Nat → Except String PollStatus)
    (t i k : Nat) (e : String) (hk : k * i ≤ t)
    (hpre : ∀ j, j < k → ∃ st, fetch j = .ok st ∧ st.executed = false)
    (herr : fetch k = .error e) :
    ∀ (f tick : Nat), tick ≤ k → k < tick + f →
      pollAux fetch t i f tick = some (.fetchFailed k e) := by
  intro f
  induction f with
  | zero => intro tick h1 h2; omega
  | succ g ih =>
    intro tick h1 h2
    have hto : ¬ t < tick * i := by
      have : tick * i ≤ k * i := Nat.mul_le_mul_right i h1
      omega
    rcases Nat.lt_or_ge tick k with hlt | hge
    · obtain ⟨st, hf, hex⟩ := hpre tick hlt
      rw [pollAux_step_ok fetch t i g tick st hto hf, if_neg (by simp [hex])]
      exact ih (tick + 1) (by omega) (by omega)
    · have htick : tick = k := le_antisymm h1 hge
      subst htick
      exact pollAux_step_error fetch t i g tick e hto herr

/-- **C6** (amended): every status-fetch failure propagates to the caller the
moment it occurs, regardless of elapsed time — none is swallowed, whether it
happens strictly before `timeout − interval` or within one interval of the
deadline. -/
theorem fetch_failure_always_propagates (fetch : Nat → Except String PollStatus)
    (t i k : Nat) (e : String) (hi : 0 < i) (hk : k * i ≤ t)
    (hpre : ∀ j, j < k → ∃ st, fetch j = .ok st ∧ st.executed = false)
    (herr : fetch k = .error e) :
    waitForExecution fetch t i = some (.fetchFailed k e) := by
  unfold waitForExecution
  have hkdiv : k ≤ t / i := (Nat.le_div_iff_mul_le hi).mpr hk
  exact pollAux_error_propagates fetch t i k e hk hpre herr (t / i + 2) 0 (by omega)
    (by omega)

theorem fetch_failure_always_propagates_witness :
    waitForExecution (fun k => if k = 2 then .error "transient" else .ok ⟨false, false⟩)
        200 50
      = some (.fetchFailed 2 "transient") :=
  fetch_failure_always_propagates
    (fun k => if k = 2 then .error "transient" else .ok ⟨false, false⟩) 200 50 2
    "transient" (by decide) (by decide)
    (fun j hj => ⟨⟨false, false⟩, by interval_cases j <;> simp, rfl⟩) rfl

/-! ## Connection manager and upload flow theorems -/

/-- **C7**: `withConnection` follows the two-strike policy: a first-attempt
failure resets the session and retries exactly once; a successful retry's
result is returned (one reset performed, the first failure not surfaced); a
second failure propagates — specifically the *second* error — after the
second reset; and the outcome depends only on the first two attempts, so the
operation is never attempted a third time. -/
theorem withConnection_two_strike (α : Type) :
    (∀ (op : Nat → Except String α) (e : String) (r : α),
        op 0 = .error e → op 1 = .ok r → withConnection op = (.ok r, 1)) ∧
      (∀ (op : Nat → Except String α) (e₁ e₂ : String),
        op 0 = .error e₁ → op 1 = .error e₂ → withConnection op = (.error e₂, 2)) ∧
      (∀ (op op' : Nat → Except String α),
        op 0 = op' 0 → op 1 = op' 1 → withConnection op = withConnection op') := by
  refine ⟨?_, ?_, ?_⟩
  · intro op e r h0 h1
    unfold withConnection
    rw [h0, h1]
  · intro op e₁ e₂ h0 h1
    unfold withConnection
    rw [h0, h1]
  · intro op op' h0 h1
    unfold withConnection
    rw [h0, h1]

theorem withConnection_two_strike_witness :
    withConnection (fun n => if n = 0 then (.error "dead session" : Except String Nat)
        else .ok 7)
      = (.ok 7, 1) :=
  (withConnection_two_strike Nat).1
    (fun n => if n = 0 then .error "dead session" else .ok 7) "dead session" 7 rfl rfl

theorem txns_deduct_sufficient (st : DbState) (addr : String) (cost : Int)
    (fid fn : String) (d : Nat) (hle : cost ≤ getBalance st addr) :
    (deductCredits st addr cost fid fn d).2.txns
      = ⟨st.nextTxnId, addr, "deduct", cost, some fid, none,
          "Storage cost for " ++ fn ++ " (" ++ toString d ++ " days)"⟩ :: st.txns := by
  unfold deductCredits
  rw [if_neg (not_lt.mpr hle)]
  rfl

theorem getBalance_createUserFile (st : DbState) (f : UserFileRec) (addr : String) :
    getBalance (createUserFile st f) addr = getBalance st addr := rfl

theorem txns_createUserFile (st : DbState) (f : UserFileRec) :
    (createUserFile st f).txns = st.txns := rfl

theorem sumDeposits_createUserFile (st : DbState) (f : UserFileRec) (addr : String) :
    sumDeposits (createUserFile st f) addr = sumDeposits st addr := rfl

/-- **C8**: when the storage write fails after a successful debit, the route
returns the storage error and the ledger keeps the debit: the balance stays
at its post-debit value, the transaction log is exactly the new `deduct`
record on top of the old log (so the deduct record remains and no
compensating `deposit` is written). -/
theorem upload_failure_keeps_debit (st : DbState) (addr : String)
    (fileSize durationDays : Nat) (fileId fileName msg : String)
    (hle : calculateStorageCost fileSize durationDays ≤ getBalance st addr)
    (hsome : (getUserCredit st addr).isSome) :
    (initiateStorage st addr fileSize durationDays fileId fileName (.fail msg)).1
        = .serverError ("Synapse upload failed: " ++ msg) ∧
      getBalance
          (initiateStorage st addr fileSize durationDays fileId fileName (.fail msg)).2 addr
        = getBalance st addr - calculateStorageCost fileSize durationDays ∧
      (initiateStorage st addr fileSize durationDays fileId fileName (.fail msg)).2.txns
        = ⟨st.nextTxnId, addr, "deduct", calculateStorageCost fileSize durationDays,
            some fileId, none,
            "Storage cost for " ++ fileName ++ " (" ++ toString durationDays ++ " days)"⟩
          :: st.txns ∧
      sumDeposits
          (initiateStorage st addr fileSize durationDays fileId fileName (.fail msg)).2 addr
        = sumDeposits st addr := by
  have hsucc := deduct_success_result st addr (calculateStorageCost fileSize durationDays)
    fileId fileName durationDays hle
  rcases hE : deductCredits st addr (calculateStorageCost fileSize durationDays)
      fileId fileName durationDays with ⟨res, st1⟩
  have hres : res = ⟨true, none, none, none⟩ := by rw [hE] at hsucc; exact hsucc
  subst hres
  have hst1 : st1 = (deductCredits st addr (calculateStorageCost fileSize durationDays)
      fileId fileName durationDays).2 := by rw [hE]
  refine ⟨?_, ?_, ?_, ?_⟩
  · simp only [initiateStorage, hE, if_true]
  · simp only [initiateStorage, hE, if_true, getBalance_createUserFile]
    rw [hst1, getBalance_deduct_sufficient st addr _ fileId fileName durationDays hle hsome]
  · simp only [initiateStorage, hE, if_true, txns_createUserFile]
    rw [hst1, txns_deduct_sufficient st addr _ fileId fileName durationDays hle]
  · simp only [initiateStorage, hE, if_true, sumDeposits_createUserFile]
    rw [hst1]
    exact (sums_deduct_sufficient st addr _ fileId fileName durationDays hle).2

theorem upload_failure_keeps_debit_witness :
    calculateStorageCost 10 30 ≤ getBalance (addCredits DbState.empty "0xu" 100000000 "r1")
        "0xu" ∧
      (getUserCredit (addCredits DbState.empty "0xu" 100000000 "r1") "0xu").isSome ∧
      ((initiateStorage (addCredits DbState.empty "0xu" 100000000 "r1") "0xu" 10 30 "f1"
            "doc.txt" (.fail "socket hang up")).1
          = .serverError ("Synapse upload failed: " ++ "socket hang up") ∧
        getBalance (initiateStorage (addCredits DbState.empty "0xu" 100000000 "r1") "0xu"
            10 30 "f1" "doc.txt" (.fail "socket hang up")).2 "0xu"
          = getBalance (addCredits DbState.empty "0xu" 100000000 "r1") "0xu"
            - calculateStorageCost 10 30 ∧
        (initiateStorage (addCredits DbState.empty "0xu" 100000000 "r1") "0xu" 10 30 "f1"
            "doc.txt" (.fail "socket hang up")).2.txns
          = ⟨(addCredits DbState.empty "0xu" 100000000 "r1").nextTxnId, "0xu", "deduct",
              calculateStorageCost 10 30, some "f1", none,
              "Storage cost for " ++ "doc.txt" ++ " (" ++ toString 30 ++ " days)"⟩
            :: (addCredits DbState.empty "0xu" 100000000 "r1").txns ∧
        sumDeposits (initiateStorage (addCredits DbState.empty "0xu" 100000000 "r1") "0xu"
            10 30 "f1" "doc.txt" (.fail "socket hang up")).2 "0xu"
          = sumDeposits (addCredits DbState.empty "0xu" 100000000 "r1") "0xu") :=
  ⟨by decide, by decide,
    upload_failure_keeps_debit (addCredits DbState.empty "0xu" 100000000 "r1") "0xu" 10 30
      "f1" "doc.txt" "socket hang up" (by decide) (by decide)⟩

end FilBridge
